import Mathlib

/-!
Verification of the agp-api client runtime (route registry, gateway
container control surface, reinjection loop, connection backoff).

The Python dictionaries of `RouteManager` are modelled as association
lists with string keys: `dget` is `d.get(k)` / `k in d`, `dset` is
`d[k] = v` (updating in place preserves the position of an existing key,
a fresh key is appended at the end, as in a Python dict), and `dpop` is
`d.pop(k, None)` (Python dict keys are unique, so removing every entry
with the key is equivalent to removing the one entry).
-/

/-- Association-list model of a Python `dict` with string keys. -/
abbrev Dict (β : Type) : Type := List (String × β)

/-- `d.get(k)`: the value stored under `k`, if any. -/
def dget {β : Type} (d : Dict β) (k : String) : Option β :=
  match d with
  | [] => none
  | (k', v) :: rest => if k' = k then some v else dget rest k

/-- `d[k] = v`: update the value in place if the key exists, else append. -/
def dset {β : Type} (d : Dict β) (k : String) (v : β) : Dict β :=
  match d with
  | [] => [(k, v)]
  | (k', v') :: rest => if k' = k then (k', v) :: rest else (k', v') :: dset rest k v

/-- `d.pop(k, None)`: remove the entry stored under `k`, if any. -/
def dpop {β : Type} (d : Dict β) (k : String) : Dict β :=
  match d with
  | [] => []
  | (k', v) :: rest => if k' = k then dpop rest k else (k', v) :: dpop rest k

/-- `RouteInfo` from `route/route_info.py`: an immutable record of one route. -/
structure RouteInfo where
  organization : String
  «namespace» : String
  remote_agent : String
deriving DecidableEq, Repr

/-- `RouteManager` state from `route/route_manager.py`: a flat index keyed by
remote agent and a nested organization -> namespace -> agent index. -/
structure RouteManager where
  routes_by_remote_agent : Dict RouteInfo
  routes_by_organization_and_namespace : Dict (Dict (Dict RouteInfo))
deriving DecidableEq, Repr

/-- `RouteManager.__init__`: both indexes start empty. -/
def emptyRouteManager : RouteManager := ⟨[], []⟩

/-- The nested-index cleanup block of `RouteManager.delete_route`: guarded by
`actual_org in index and actual_namespace in index[actual_org]`, it pops the
agent from the inner dict, then removes the namespace entry if it became
empty, then the organization entry if it became empty. -/
def deleteNested (nested : Dict (Dict (Dict RouteInfo))) (o n a : String) :
    Dict (Dict (Dict RouteInfo)) :=
  match dget nested o with
  | none => nested
  | some orgDict =>
    match dget orgDict n with
    | none => nested
    | some nsDict =>
      let nsDict' := dpop nsDict a
      let orgDict' := if nsDict'.isEmpty then dpop orgDict n else dset orgDict n nsDict'
      if orgDict'.isEmpty then dpop nested o else dset nested o orgDict'

/-- `RouteManager.delete_route`: returns the boolean result together with the
state of the manager after the call (the state is unchanged when the agent is
unknown or the caller-supplied organization/namespace do not match the stored
route; otherwise the route is removed from both indexes and empty nested
containers are cleaned up, exactly as in the source). -/
def delete_route (rm : RouteManager) (organization nspace remote_agent : String) :
    Bool × RouteManager :=
  match dget rm.routes_by_remote_agent remote_agent with
  | none => (false, rm)
  | some actual_route =>
    if organization ≠ actual_route.organization ∨ nspace ≠ actual_route.«namespace» then
      (false, rm)
    else
      (true,
        ⟨dpop rm.routes_by_remote_agent remote_agent,
          deleteNested rm.routes_by_organization_and_namespace
            actual_route.organization actual_route.«namespace» remote_agent⟩)

/-- The nested-index write of `RouteManager.add_route`: ensure the
organization and namespace levels exist (`if organization not in ...` /
`if namespace not in ...` create empty dicts), then store the route under the
agent key. -/
def insertNested (nested : Dict (Dict (Dict RouteInfo))) (o n a : String)
    (route_info : RouteInfo) : Dict (Dict (Dict RouteInfo)) :=
  let orgDict := (dget nested o).getD []
  let nsDict := (dget orgDict n).getD []
  dset nested o (dset orgDict n (dset nsDict a route_info))

/-- `RouteManager.add_route`: if a route for `remote_agent` already exists it is
first deleted (at its stored organization/namespace), then the new `RouteInfo`
is written into the flat index and into the nested index. -/
def add_route (rm : RouteManager) (organization nspace remote_agent : String) :
    RouteManager :=
  let rm1 :=
    match dget rm.routes_by_remote_agent remote_agent with
    | some existing_route =>
      (delete_route rm existing_route.organization existing_route.«namespace» remote_agent).2
    | none => rm
  let route_info : RouteInfo := ⟨organization, nspace, remote_agent⟩
  ⟨dset rm1.routes_by_remote_agent remote_agent route_info,
    insertNested rm1.routes_by_organization_and_namespace organization nspace
      remote_agent route_info⟩

/-- `RouteManager.get_route_by_remote_agent`. -/
def get_route_by_remote_agent (rm : RouteManager) (remote_agent : String) :
    Option RouteInfo :=
  dget rm.routes_by_remote_agent remote_agent

/-- `RouteManager.route_exists`: a route for `remote_agent` exists and its
stored organization and namespace match the arguments. -/
def route_exists (rm : RouteManager) (organization nspace remote_agent : String) : Bool :=
  match dget rm.routes_by_remote_agent remote_agent with
  | none => false
  | some route_info =>
    route_info.organization = organization ∧ route_info.«namespace» = nspace

/-- `RouteManager.get_routes_by_organization`. -/
def get_routes_by_organization (rm : RouteManager) (organization : String) :
    List RouteInfo :=
  match dget rm.routes_by_organization_and_namespace organization with
  | none => []
  | some orgDict => (orgDict.map fun p => p.2.map Prod.snd).flatten

/-- `RouteManager.get_routes_by_organization_namespace`. -/
def get_routes_by_organization_namespace (rm : RouteManager)
    (organization nspace : String) : List RouteInfo :=
  match dget rm.routes_by_organization_and_namespace organization with
  | none => []
  | some orgDict =>
    match dget orgDict nspace with
    | none => []
    | some nsDict => nsDict.map Prod.snd

/-- Lookup of one `(organization, namespace, agent)` triple through a nested
organization -> namespace -> agent dictionary. -/
def nget (nested : Dict (Dict (Dict RouteInfo))) (o n a : String) : Option RouteInfo :=
  match dget nested o with
  | none => none
  | some orgDict =>
    match dget orgDict n with
    | none => none
    | some nsDict => dget nsDict a

/-- Lookup of one `(organization, namespace, agent)` triple through the nested
index: the triple is reachable through the index iff this returns `some`. -/
def nestedGet (rm : RouteManager) (o n a : String) : Option RouteInfo :=
  nget rm.routes_by_organization_and_namespace o n a

/-- The route the flat index stores for agent `a`, filtered to organization `o`
and namespace `n`. -/
def flatTriple (rm : RouteManager) (o n a : String) : Option RouteInfo :=
  match dget rm.routes_by_remote_agent a with
  | none => none
  | some r => if r.organization = o ∧ r.«namespace» = n then some r else none

/-- One mutating call on the route manager. -/
inductive RouteOp where
  | add (organization nspace remote_agent : String)
  | del (organization nspace remote_agent : String)
deriving DecidableEq, Repr

/-- Apply one `addRoute`/`deleteRoute` call. -/
def applyOp (rm : RouteManager) : RouteOp → RouteManager
  | .add o n a => add_route rm o n a
  | .del o n a => (delete_route rm o n a).2

/-- The manager state after a sequence of calls starting from the empty state. -/
def applyOps (ops : List RouteOp) : RouteManager :=
  ops.foldl applyOp emptyRouteManager

/-- Invariants of every reachable `RouteManager` state: the flat index has
unique keys, every stored value records its own key as `remote_agent`, and the
nested index agrees pointwise with the flat index. -/
structure WF (rm : RouteManager) : Prop where
  nodup : (rm.routes_by_remote_agent.map Prod.fst).Nodup
  keys_eq : ∀ p ∈ rm.routes_by_remote_agent, p.2.remote_agent = p.1
  agree : ∀ o n a, nestedGet rm o n a = flatTriple rm o n a

/-!
JSON values and the Python-level semantics the gateway code relies on:
truthiness (`if not payload.get(...)`), `dict.get`, and the exception
classes distinguished by the `except` clauses of
`GatewayContainer.process_message`.
-/

/-- A decoded JSON value (the result of `json.loads`); objects keep field
order like Python dicts. -/
inductive JsonVal where
  | str (s : String)
  | num (n : Int)
  | bool (b : Bool)
  | null
  | arr (xs : List JsonVal)
  | obj (fields : List (String × JsonVal))

/-- Python truthiness of a JSON value (`if not v`). -/
def truthy : JsonVal → Bool
  | .str s => ¬ s.isEmpty
  | .num n => n ≠ 0
  | .bool b => b
  | .null => false
  | .arr xs => ¬ xs.isEmpty
  | .obj fs => ¬ fs.isEmpty

/-- Truthiness of `payload.get(k)`: an absent key yields `None`, which is
falsy. -/
def truthyOpt : Option JsonVal → Bool
  | none => false
  | some v => truthy v

/-- How `json.dumps` renders `payload.get(k)`: an absent key contributed the
Python value `None`, serialized as `null`. -/
def jsonOrNull : Option JsonVal → JsonVal
  | none => .null
  | some v => v

/-- The exception classes that can reach the `except` clauses of
`GatewayContainer.process_message`: `fastapi.HTTPException` (the only class
matched by the first clause), the `httpx.HTTPStatusError` raised by
`response.raise_for_status()` on a non-2xx response, and any other
`Exception` (e.g. one raised inside the handler and propagated by the
test client). -/
inductive PyExc where
  | httpException (status : Int) (detail : String)
  | httpStatusError (status : Int)
  | otherExc (message : String)
deriving DecidableEq, Repr

/-- `str(exc)` for the modelled exceptions. The exact text of an
`httpx.HTTPStatusError` is library-formatted; the model only keeps the
status it mentions, which no claim depends on. -/
def pyStrExc : PyExc → String
  | .httpException status detail => toString status ++ ": " ++ detail
  | .httpStatusError status => "HTTPStatusError for status " ++ toString status
  | .otherExc message => message

/-- The outcome of `client.post(route, json=payload, headers=headers)` for one
payload: either an HTTP response with a status code and decoded JSON body
(a handler that raises `fastapi.HTTPException` lands here, since FastAPI
converts it into a response with that status), or an exception propagated by
the test client (a handler that raises an unhandled error). -/
inductive HandlerOutcome where
  | resp (status : Int) (body : JsonVal)
  | raises (e : PyExc)

/-- The result of a Python call: a returned reply (the source returns JSON
text; the model keeps the structured value it serializes) or an uncaught
exception. -/
inductive PyResult where
  | reply (v : JsonVal)
  | raised (e : String)

/-- `GatewayContainer.create_error`: the structured error reply
`{"message": error, "error": code, "agent_id": agent_id}`. -/
def gw_create_error (error : String) (code : Int) (agent_id : JsonVal) : JsonVal :=
  .obj [("message", .str error), ("error", .num code), ("agent_id", agent_id)]

/-- The `except` dispatch at the end of `GatewayContainer.process_message`:
only a `fastapi.HTTPException` keeps its own status code; every other
exception is converted to an internal-error (500) reply. -/
def gw_handle_exc (agent_id : Option JsonVal) (e : PyExc) : JsonVal :=
  match e with
  | .httpException status detail => gw_create_error detail status (jsonOrNull agent_id)
  | e' => gw_create_error (pyStrExc e') 500 (jsonOrNull agent_id)

/-- `GatewayContainer.process_message`. `payload` is the decoded message;
`app` is `None` when no FastAPI app is set, otherwise it carries the outcome
of posting this payload to the app through the test client (headers are
forwarded and absorbed into that outcome). `response.raise_for_status()`
raises `httpx.HTTPStatusError` for every non-2xx status. -/
def gw_process_message (payload : Dict JsonVal) (app : Option HandlerOutcome) :
    PyResult :=
  let agent_id := dget payload "agent_id"
  if ¬ truthyOpt agent_id then
    .reply (gw_create_error "agent_id is required and cannot be empty." 422
      (jsonOrNull agent_id))
  else if ¬ truthyOpt (dget payload "route") then
    .reply (gw_create_error "NOT_FOUND" 404 (jsonOrNull agent_id))
  else
    match app with
    | none =>
      .reply (gw_create_error "FastAPI app is not available" 500 (jsonOrNull agent_id))
    | some (.raises e) => .reply (gw_handle_exc agent_id e)
    | some (.resp status body) =>
      if 200 ≤ status ∧ status ≤ 299 then
        if status = 200 then .reply body
        else .reply (.obj [("error", .str "Unexpected status code")])
      else .reply (gw_handle_exc agent_id (.httpStatusError status))

/-- `create_error` from `gateway/data_plane.py`: `{"message": error, "error": code}`. -/
def dp_create_error (error : String) (code : Int) : JsonVal :=
  .obj [("message", .str error), ("error", .num code)]

/-- The tail of `data_plane.process_message` after the metadata step: the
`input`, `input.messages`, last-message and `content` validation rules.  All
paths that pass validation raise: the source then evaluates
`GatewayContainer.get_fastapi_app()` on the class itself, and calling this
instance method without an instance raises a `TypeError`. -/
def dp_input_checks (payload : Dict JsonVal) : PyResult :=
  match dget payload "input" with
  | some (.obj input_fields) =>
    match dget input_fields "messages" with
    | some (.arr messages) =>
      if messages.isEmpty then
        .reply (dp_create_error
          "The \x27input.messages\x27 field should be a non-empty list." 500)
      else
        match messages.getLast? with
        | some (.obj last_fields) =>
          (match dget last_fields "content" with
          | none =>
            .reply (dp_create_error
              "Missing \x27content\x27 in the first message of \x27input.messages\x27." 500)
          | some .null =>
            .reply (dp_create_error
              "Missing \x27content\x27 in the first message of \x27input.messages\x27." 500)
          | some _ => .raised "TypeError")
        | _ =>
          .reply (dp_create_error
            "The first element in \x27input.messages\x27 should be a dictionary." 500)
    | _ =>
      .reply (dp_create_error
        "The \x27input.messages\x27 field should be a non-empty list." 500)
  | _ => .reply (dp_create_error "The \x27input\x27 field should be a dictionary." 500)

/-- `process_message` from `gateway/data_plane.py`: the module-level
implementation of the wire-schema validation rules.  The metadata step
evaluates `metadata.get("id")` whenever `payload.get("metadata", None)` is
not `None`; on a non-dict metadata value that attribute access raises an
`AttributeError`. -/
def dp_process_message (payload : Dict JsonVal) : PyResult :=
  if ¬ truthyOpt (dget payload "agent_id") then
    .reply (dp_create_error "agent_id is required and cannot be empty." 422)
  else if ¬ truthyOpt (dget payload "route") then
    .reply (dp_create_error "Not Found." 404)
  else
    match dget payload "metadata" with
    | none => dp_input_checks payload
    | some .null => dp_input_checks payload
    | some (.obj _) => dp_input_checks payload
    | some _ => .raised "AttributeError"

/-!
The route registration control surface of `GatewayContainer`
(`register_route` / `deregister_route`).  The transport call
(`gateway.set_route` / `gateway.remove_route`) is the first statement of the
`try` block; its outcome is passed in as an `Except` value.  The functions
return the Python outcome (re-raised error or returned value) together with
the `RouteManager` state after the call.
-/

/-- `GatewayContainer.register_route`. -/
def register_route (transport : Except String Unit) (rm : RouteManager)
    (organization nspace remote_agent : String) :
    Except String Unit × RouteManager :=
  match transport with
  | .error e => (.error e, rm)
  | .ok _ => (.ok (), add_route rm organization nspace remote_agent)

/-- `GatewayContainer.deregister_route`. -/
def deregister_route (transport : Except String Unit) (rm : RouteManager)
    (organization nspace remote_agent : String) :
    Except String Bool × RouteManager :=
  match transport with
  | .error e => (.error e, rm)
  | .ok _ =>
    let r := delete_route rm organization nspace remote_agent
    (.ok r.1, r.2)

/-- `GatewayContainer.connect_with_retry`, for an execution in which every
connection attempt fails.  `attempts` lists, per attempt, how long the
attempt would run before failing on its own; `asyncio.wait_for` bounds the
attempt by the remaining budget, so attempt `i` actually ends after
`min (attempts i) remaining`.  The function returns the backoff sleeps the
loop performs, as `(start, end)` pairs measured from the recorded start
time: after each failed attempt the source sleeps the full current `delay`
(`await asyncio.sleep(delay)`) and then doubles it, capped at 30. -/
def connect_with_retry_sleeps (attempts : List Nat) (max_duration delay t : Nat) :
    List (Nat × Nat) :=
  match attempts with
  | [] => []
  | a :: rest =>
    if t < max_duration then
      let remaining := max_duration - t
      if remaining = 0 then []
      else
        let sleepStart := t + min a remaining
        let sleepEnd := sleepStart + delay
        (sleepStart, sleepEnd) ::
          connect_with_retry_sleeps rest max_duration (min (delay * 2) 30) sleepEnd
    else []

/-!
The reinjection loop (`GatewayContainer.start_server`).  The transport's
`receive()` suspension is modelled by the list of messages delivered before
the task is cancelled; each element is the reported source together with the
decoded payload (`json.loads` of the received bytes).  Cancellation can land
on any `await`: at the next `receive()` or inside the `publish_to` of the
message being processed — in both cases `last_src`/`last_msg` already hold
the most recently received message.  The `except CancelledError` clause turns
the cancellation into a `RuntimeError` whose f-string interpolates `last_src`
and `last_msg`, and the `finally` clause (the cleanup step logging the local
identity) runs on every exit path.
-/

/-- Python `str()` of a decoded JSON value, as interpolated by the f-string
of the shutdown error (dict/list reprs with single-quoted strings, `None`,
`True`/`False`). -/
def pyStrVal : JsonVal → String
  | .str s => "\x27" ++ s ++ "\x27"
  | .num n => toString n
  | .bool b => if b then "True" else "False"
  | .null => "None"
  | .arr xs => "[" ++ String.intercalate ", " (xs.attach.map fun x => pyStrVal x.1) ++ "]"
  | .obj fs => "\x7b" ++ String.intercalate ", "
      (fs.attach.map fun p => "\x27" ++ p.1.1 ++ "\x27: " ++ pyStrVal p.1.2) ++ "\x7d"
termination_by v => sizeOf v
decreasing_by
  · have h := List.sizeOf_lt_of_mem x.2
    simp only [JsonVal.arr.sizeOf_spec]
    omega
  · have h := List.sizeOf_lt_of_mem p.2
    have h2 : sizeOf p.1.2 < sizeOf p.1 := by
      obtain ⟨⟨k, v⟩, hm⟩ := p
      simp
    simp only [JsonVal.obj.sizeOf_spec]
    omega

/-- Python `str()` of a decoded payload object (`last_msg` is the whole
decoded dict). -/
def pyStrPayload (payload : Dict JsonVal) : String :=
  pyStrVal (.obj payload)

/-- The message of the `RuntimeError` raised on cancellation:
`f"Shutdown server. Last source: {last_src}, Last message: {last_msg}"`. -/
def shutdownMessage (last_src last_msg : String) : String :=
  "Shutdown server. Last source: " ++ last_src ++ ", Last message: " ++ last_msg

/-- Where the cancellation lands: at the next `receive()`, or inside the
`publish_to` of the final message (whose processing is then incomplete). -/
inductive CancelPoint where
  | atNextReceive
  | duringFinalPublish
deriving DecidableEq, Repr

/-- How the loop terminates. -/
inductive ServerOutcome where
  | shutdownError (message : String)
  | uncaught (e : String)

/-- Observable result of one `start_server` run: the replies published to
their sources, the terminating error, and whether the `finally` cleanup step
ran. -/
structure ServerRun where
  published : List (String × JsonVal)
  outcome : ServerOutcome
  cleanupLogged : Bool

/-- The receive/process/publish loop.  `last_src`/`last_msg_str` carry the
diagnostic state (both initialized to `""` by the source). -/
def serverLoop (app : Option (Dict JsonVal → HandlerOutcome))
    (msgs : List (String × Dict JsonVal)) (cp : CancelPoint)
    (last_src last_msg_str : String) : ServerRun :=
  match msgs with
  | [] => ⟨[], .shutdownError (shutdownMessage last_src last_msg_str), true⟩
  | (src, payload) :: rest =>
    match gw_process_message payload (app.map fun f => f payload) with
    | .raised e => ⟨[], .uncaught e, true⟩
    | .reply v =>
      if rest.isEmpty ∧ cp = .duringFinalPublish then
        ⟨[], .shutdownError (shutdownMessage src (pyStrPayload payload)), true⟩
      else
        let r := serverLoop app rest cp src (pyStrPayload payload)
        ⟨(src, v) :: r.published, r.outcome, r.cleanupLogged⟩

/-- `GatewayContainer.start_server`, run until cancellation. -/
def start_server (app : Option (Dict JsonVal → HandlerOutcome))
    (msgs : List (String × Dict JsonVal)) (cp : CancelPoint) : ServerRun :=
  serverLoop app msgs cp "" ""

/-- Whether `payload.get("metadata", None)` can be traversed by the metadata
step of `data_plane.process_message` without raising: the key is absent, its
value is `None`, or its value is a mapping. -/
def metadataOk (v : Option JsonVal) : Bool :=
  match v with
  | none => true
  | some .null => true
  | some (.obj _) => true
  | some _ => false

/-- Whether an optional JSON value is present and a mapping
(`isinstance(x, dict)`). -/
def isObjOpt (v : Option JsonVal) : Bool :=
  match v with
  | some (.obj _) => true
  | _ => false

/-! Lemmas about the dictionary model. -/

theorem dget_dset {β : Type} (d : Dict β) (k k' : String) (v : β) :
    dget (dset d k v) k' = if k' = k then some v else dget d k' := by
  by_cases h : k' = k
  · subst h
    rw [if_pos rfl]
    induction d with
    | nil => simp [dset, dget]
    | cons p rest ih =>
      obtain ⟨k1, v1⟩ := p
      by_cases h1 : k1 = k'
      · subst h1; simp [dset, dget]
      · simp [dset, dget, h1, ih]
  · rw [if_neg h]
    induction d with
    | nil =>
      have h' : ¬ k = k' := fun hh => h hh.symm
      simp [dset, dget, h']
    | cons p rest ih =>
      obtain ⟨k1, v1⟩ := p
      by_cases h1 : k1 = k
      · subst h1
        have h' : ¬ k1 = k' := fun hh => h hh.symm
        simp [dset, dget, h']
      · by_cases h2 : k1 = k'
        · subst h2; simp [dset, dget, h1]
        · simp [dset, dget, h1, h2, ih]

theorem dget_dpop {β : Type} (d : Dict β) (k k' : String) :
    dget (dpop d k) k' = if k' = k then none else dget d k' := by
  induction d with
  | nil => simp [dpop, dget]
  | cons p rest ih =>
    obtain ⟨k1, v1⟩ := p
    by_cases h1 : k1 = k
    · subst h1
      by_cases h2 : k1 = k'
      · subst h2; simp [dpop, dget, ih]
      · simp [dpop, dget, h2, ih]
    · by_cases h2 : k1 = k'
      · subst h2
        simp [dpop, dget, ih, fun hh : k1 = k => h1 hh]
      · simp [dpop, dget, h1, h2, ih]

theorem dset_ne_nil {β : Type} (d : Dict β) (k : String) (v : β) :
    dset d k v ≠ [] := by
  cases d with
  | nil => simp [dset]
  | cons p rest =>
    obtain ⟨k1, v1⟩ := p
    by_cases h : k1 = k <;> simp [dset, h]

theorem dget_of_dpop_eq_nil {β : Type} {d : Dict β} {k : String}
    (h : dpop d k = []) {k' : String} (hk : k' ≠ k) : dget d k' = none := by
  induction d with
  | nil => simp [dget]
  | cons p rest ih =>
    obtain ⟨k1, v1⟩ := p
    by_cases h1 : k1 = k
    · subst h1
      simp only [dpop, if_pos rfl] at h
      have h' : ¬ k1 = k' := fun hh => hk hh.symm
      simpa [dget, h'] using ih h
    · simp [dpop, h1] at h

theorem dpop_sublist {β : Type} (d : Dict β) (k : String) :
    (dpop d k).Sublist d := by
  induction d with
  | nil => simp [dpop]
  | cons p rest ih =>
    obtain ⟨k1, v1⟩ := p
    by_cases h1 : k1 = k
    · simpa [dpop, h1] using ih.cons (k1, v1)
    · simpa [dpop, h1] using ih.cons₂ (k1, v1)

theorem mem_of_mem_dpop {β : Type} {d : Dict β} {k : String} {p : String × β}
    (h : p ∈ dpop d k) : p ∈ d :=
  (dpop_sublist d k).mem h

theorem nodup_keys_dpop {β : Type} {d : Dict β} (k : String)
    (h : (d.map Prod.fst).Nodup) : ((dpop d k).map Prod.fst).Nodup :=
  h.sublist ((dpop_sublist d k).map Prod.fst)

theorem mem_dset {β : Type} {d : Dict β} {k : String} {v : β} {p : String × β}
    (h : p ∈ dset d k v) : p = (k, v) ∨ p ∈ d := by
  induction d with
  | nil => simpa [dset] using h
  | cons q rest ih =>
    obtain ⟨k1, v1⟩ := q
    by_cases h1 : k1 = k
    · subst h1
      rcases (by simpa [dset] using h : p = (k1, v) ∨ p ∈ rest) with h2 | h2
      · exact Or.inl h2
      · exact Or.inr (List.mem_cons_of_mem _ h2)
    · rcases (by simpa [dset, h1] using h : p = (k1, v1) ∨ p ∈ dset rest k v) with h2 | h2
      · exact Or.inr (by simp [h2])
      · rcases ih h2 with h3 | h3
        · exact Or.inl h3
        · exact Or.inr (List.mem_cons_of_mem _ h3)

theorem keys_dset_mem {β : Type} {d : Dict β} {k : String} {v : β} {x : String}
    (h : x ∈ (dset d k v).map Prod.fst) : x ∈ d.map Prod.fst ∨ x = k := by
  rcases List.mem_map.1 h with ⟨p, hp, hx⟩
  rcases mem_dset hp with h2 | h2
  · subst h2; exact Or.inr (by simpa using hx.symm)
  · exact Or.inl (hx ▸ List.mem_map_of_mem Prod.fst h2)

theorem nodup_keys_dset {β : Type} {d : Dict β} (k : String) (v : β)
    (h : (d.map Prod.fst).Nodup) : ((dset d k v).map Prod.fst).Nodup := by
  induction d with
  | nil => simp [dset]
  | cons p rest ih =>
    obtain ⟨k1, v1⟩ := p
    simp only [List.map_cons, List.nodup_cons] at h
    by_cases h1 : k1 = k
    · subst h1
      simpa [dset] using h
    · have hmem : k1 ∉ (dset rest k v).map Prod.fst := by
        intro hmem
        rcases keys_dset_mem hmem with h2 | h2
        · exact h.1 h2
        · exact h1 h2
      simp only [dset, if_neg h1, List.map_cons, List.nodup_cons]
      exact ⟨hmem, ih h.2⟩

theorem dget_mem {β : Type} {d : Dict β} {k : String} {v : β}
    (h : dget d k = some v) : (k, v) ∈ d := by
  induction d with
  | nil => simp [dget] at h
  | cons p rest ih =>
    obtain ⟨k1, v1⟩ := p
    by_cases h1 : k1 = k
    · subst h1
      have hv : v1 = v := by simpa [dget] using h
      simp [hv]
    · simp only [dget, if_neg h1] at h
      exact List.mem_cons_of_mem _ (ih h)

theorem mem_dget {β : Type} {d : Dict β} (hd : (d.map Prod.fst).Nodup)
    {k : String} {v : β} (h : (k, v) ∈ d) : dget d k = some v := by
  induction d with
  | nil => simp at h
  | cons p rest ih =>
    obtain ⟨k1, v1⟩ := p
    simp only [List.map_cons, List.nodup_cons] at hd
    rcases List.mem_cons.1 h with h2 | h2
    · rw [Prod.mk.injEq] at h2
      obtain ⟨hk, hv⟩ := h2
      subst hk; subst hv
      simp [dget]
    · by_cases h1 : k1 = k
      · subst h1
        exact absurd (List.mem_map_of_mem Prod.fst h2) hd.1
      · simpa [dget, h1] using ih hd.2 h2

/-! Characterization of the nested-index operations by pointwise lookup. -/

theorem nget_deleteNested (nested : Dict (Dict (Dict RouteInfo))) (o n a o' n' a' : String) :
    nget (deleteNested nested o n a) o' n' a' =
      if o' = o ∧ n' = n ∧ a' = a then none else nget nested o' n' a' := by
  cases hO : dget nested o with
  | none =>
    have hd : deleteNested nested o n a = nested := by simp [deleteNested, hO]
    rw [hd]
    by_cases hc : o' = o ∧ n' = n ∧ a' = a
    · obtain ⟨h1, h2, h3⟩ := hc
      subst h1; subst h2; subst h3
      simp [nget, hO]
    · rw [if_neg hc]
  | some orgDict =>
    cases hN : dget orgDict n with
    | none =>
      have hd : deleteNested nested o n a = nested := by simp [deleteNested, hO, hN]
      rw [hd]
      by_cases hc : o' = o ∧ n' = n ∧ a' = a
      · obtain ⟨h1, h2, h3⟩ := hc
        subst h1; subst h2; subst h3
        simp [nget, hO, hN]
      · rw [if_neg hc]
    | some nsDict =>
      have hd : deleteNested nested o n a =
          if (if (dpop nsDict a).isEmpty then dpop orgDict n
              else dset orgDict n (dpop nsDict a)).isEmpty then dpop nested o
          else dset nested o (if (dpop nsDict a).isEmpty then dpop orgDict n
              else dset orgDict n (dpop nsDict a)) := by
        simp [deleteNested, hO, hN]
      rw [hd]
      by_cases hns : (dpop nsDict a).isEmpty
      · have hnil : dpop nsDict a = [] := List.isEmpty_iff.mp hns
        by_cases horg : (dpop orgDict n).isEmpty
        · have honil : dpop orgDict n = [] := List.isEmpty_iff.mp horg
          by_cases ho' : o' = o
          · subst ho'
            by_cases hn' : n' = n
            · subst hn'
              by_cases ha' : a' = a
              · subst ha'
                simp [nget, dget_dpop, hns, horg]
              · have hz : dget nsDict a' = none := dget_of_dpop_eq_nil hnil ha'
                simp [nget, dget_dpop, hns, horg, hO, hN, ha', hz]
            · have hz : dget orgDict n' = none := dget_of_dpop_eq_nil honil hn'
              simp [nget, dget_dpop, hns, horg, hO, hn', hz]
          · simp [nget, dget_dpop, hns, horg, ho']
        · by_cases ho' : o' = o
          · subst ho'
            by_cases hn' : n' = n
            · subst hn'
              by_cases ha' : a' = a
              · subst ha'
                simp [nget, dget_dset, dget_dpop, hns, horg]
              · have hz : dget nsDict a' = none := dget_of_dpop_eq_nil hnil ha'
                simp [nget, dget_dset, dget_dpop, hns, horg, hO, hN, ha', hz]
            · simp [nget, dget_dset, dget_dpop, hns, horg, hO, hn']
          · simp [nget, dget_dset, hns, horg, ho']
      · have horg : ¬ (dset orgDict n (dpop nsDict a)).isEmpty = true := by
          intro hh
          exact dset_ne_nil _ _ _ (List.isEmpty_iff.mp hh)
        by_cases ho' : o' = o
        · subst ho'
          by_cases hn' : n' = n
          · subst hn'
            by_cases ha' : a' = a
            · subst ha'
              simp [nget, dget_dset, dget_dpop, hns, horg]
            · simp [nget, dget_dset, dget_dpop, hns, horg, hO, hN, ha']
          · simp [nget, dget_dset, dget_dpop, hns, horg, hO, hn']
        · simp [nget, dget_dset, hns, horg, ho']

theorem nget_insertNested (nested : Dict (Dict (Dict RouteInfo))) (o n a : String)
    (ri : RouteInfo) (o' n' a' : String) :
    nget (insertNested nested o n a ri) o' n' a' =
      if o' = o ∧ n' = n ∧ a' = a then some ri else nget nested o' n' a' := by
  by_cases ho' : o' = o
  · subst ho'
    by_cases hn' : n' = n
    · subst hn'
      by_cases ha' : a' = a
      · subst ha'
        cases hO : dget nested o' with
        | none => simp [insertNested, nget, hO, dget_dset]
        | some orgDict =>
          cases hN : dget orgDict n' with
          | none => simp [insertNested, nget, hO, hN, dget_dset]
          | some nsDict => simp [insertNested, nget, hO, hN, dget_dset]
      · have hsa : ¬ a = a' := fun hh => ha' hh.symm
        cases hO : dget nested o' with
        | none => simp [insertNested, nget, hO, dget_dset, ha', hsa, dget]
        | some orgDict =>
          cases hN : dget orgDict n' with
          | none => simp [insertNested, nget, hO, hN, dget_dset, ha', hsa, dget]
          | some nsDict => simp [insertNested, nget, hO, hN, dget_dset, ha']
    · have hsn : ¬ n = n' := fun hh => hn' hh.symm
      cases hO : dget nested o' with
      | none => simp [insertNested, nget, hO, dget_dset, hn', hsn, dget]
      | some orgDict => simp [insertNested, nget, hO, dget_dset, hn', hsn]
  · simp [insertNested, nget, dget_dset, ho']

/-! Behaviour of `delete_route` and `add_route`. -/

theorem delete_route_unknown {rm : RouteManager} {o n a : String}
    (h : dget rm.routes_by_remote_agent a = none) :
    delete_route rm o n a = (false, rm) := by
  simp [delete_route, h]

theorem delete_route_mismatch {rm : RouteManager} {o n a : String} {r : RouteInfo}
    (h : dget rm.routes_by_remote_agent a = some r)
    (hm : ¬ (r.organization = o ∧ r.«namespace» = n)) :
    delete_route rm o n a = (false, rm) := by
  have hcond : o ≠ r.organization ∨ n ≠ r.«namespace» := by tauto
  simp only [delete_route, h]
  rw [if_pos hcond]

theorem delete_route_success {rm : RouteManager} {o n a : String} {r : RouteInfo}
    (h : dget rm.routes_by_remote_agent a = some r)
    (ho : r.organization = o) (hn : r.«namespace» = n) :
    delete_route rm o n a =
      (true, ⟨dpop rm.routes_by_remote_agent a,
        deleteNested rm.routes_by_organization_and_namespace o n a⟩) := by
  subst ho; subst hn
  simp [delete_route, h]

theorem nestedGet_delete {rm : RouteManager} {o n a : String} {r : RouteInfo}
    (h : dget rm.routes_by_remote_agent a = some r)
    (ho : r.organization = o) (hn : r.«namespace» = n) (o' n' a' : String) :
    nestedGet (delete_route rm o n a).2 o' n' a' =
      if o' = o ∧ n' = n ∧ a' = a then none else nestedGet rm o' n' a' := by
  rw [delete_route_success h ho hn]
  exact nget_deleteNested rm.routes_by_organization_and_namespace o n a o' n' a'

theorem flat_delete {rm : RouteManager} {o n a : String} {r : RouteInfo}
    (h : dget rm.routes_by_remote_agent a = some r)
    (ho : r.organization = o) (hn : r.«namespace» = n) (a' : String) :
    dget (delete_route rm o n a).2.routes_by_remote_agent a' =
      if a' = a then none else dget rm.routes_by_remote_agent a' := by
  rw [delete_route_success h ho hn]
  exact dget_dpop rm.routes_by_remote_agent a a'

theorem flat_add (rm : RouteManager) (o n a a' : String) :
    dget (add_route rm o n a).routes_by_remote_agent a' =
      if a' = a then some ⟨o, n, a⟩ else dget rm.routes_by_remote_agent a' := by
  cases hE : dget rm.routes_by_remote_agent a with
  | none =>
    simp only [add_route, hE]
    exact dget_dset rm.routes_by_remote_agent a a' _
  | some r0 =>
    have hs := delete_route_success hE rfl rfl
    simp only [add_route, hE, hs]
    by_cases ha' : a' = a <;> simp [dget_dset, dget_dpop, ha']

theorem nestedGet_add {rm : RouteManager}
    (hag : ∀ o'' n'' a'', nestedGet rm o'' n'' a'' = flatTriple rm o'' n'' a'')
    (o n a o' n' a' : String) :
    nestedGet (add_route rm o n a) o' n' a' =
      if o' = o ∧ n' = n ∧ a' = a then some ⟨o, n, a⟩
      else if a' = a then none else nestedGet rm o' n' a' := by
  cases hE : dget rm.routes_by_remote_agent a with
  | none =>
    have h1 : nestedGet (add_route rm o n a) o' n' a' =
        nget (insertNested rm.routes_by_organization_and_namespace o n a ⟨o, n, a⟩)
          o' n' a' := by
      simp [add_route, hE, nestedGet]
    rw [h1, nget_insertNested]
    by_cases hc : o' = o ∧ n' = n ∧ a' = a
    · rw [if_pos hc, if_pos hc]
    · rw [if_neg hc, if_neg hc]
      by_cases ha' : a' = a
      · subst ha'
        rw [if_pos rfl]
        have := hag o' n' a'
        rw [show nget rm.routes_by_organization_and_namespace o' n' a' =
          nestedGet rm o' n' a' from rfl, this]
        simp [flatTriple, hE]
      · rw [if_neg ha']
        rfl
  | some r0 =>
    have h1 : nestedGet (add_route rm o n a) o' n' a' =
        nget (insertNested (delete_route rm r0.organization r0.«namespace» a).2.routes_by_organization_and_namespace
          o n a ⟨o, n, a⟩) o' n' a' := by
      simp [add_route, hE, nestedGet]
    rw [h1, nget_insertNested]
    by_cases hc : o' = o ∧ n' = n ∧ a' = a
    · rw [if_pos hc, if_pos hc]
    · rw [if_neg hc, if_neg hc]
      have h2 : nget (delete_route rm r0.organization r0.«namespace» a).2.routes_by_organization_and_namespace o' n' a' =
          nestedGet (delete_route rm r0.organization r0.«namespace» a).2 o' n' a' := rfl
      rw [h2, nestedGet_delete hE rfl rfl]
      by_cases ha' : a' = a
      · subst ha'
        rw [if_pos rfl]
        by_cases hd : o' = r0.organization ∧ n' = r0.«namespace» ∧ a' = a'
        · rw [if_pos hd]
        · rw [if_neg hd]
          have := hag o' n' a'
          rw [this]
          have hm : ¬ (r0.organization = o' ∧ r0.«namespace» = n') := by
            intro hh
            exact hd ⟨hh.1.symm, hh.2.symm, rfl⟩
          simp [flatTriple, hE, hm]
      · have hd : ¬ (o' = r0.organization ∧ n' = r0.«namespace» ∧ a' = a) := by
          intro hh
          exact ha' hh.2.2
        rw [if_neg hd, if_neg ha']

theorem flatTriple_delete {rm : RouteManager} {o n a : String} {r : RouteInfo}
    (h : dget rm.routes_by_remote_agent a = some r)
    (ho : r.organization = o) (hn : r.«namespace» = n) (o' n' a' : String) :
    flatTriple (delete_route rm o n a).2 o' n' a' =
      if a' = a then none else flatTriple rm o' n' a' := by
  unfold flatTriple
  rw [flat_delete h ho hn]
  by_cases ha' : a' = a <;> simp [ha']

theorem flatTriple_add (rm : RouteManager) (o n a o' n' a' : String) :
    flatTriple (add_route rm o n a) o' n' a' =
      if a' = a then
        (if o = o' ∧ n = n' then some ⟨o, n, a⟩ else none)
      else flatTriple rm o' n' a' := by
  unfold flatTriple
  rw [flat_add]
  by_cases ha' : a' = a <;> simp [ha']

/-! Preservation of the reachable-state invariants. -/

theorem wf_delete {rm : RouteManager} (h : WF rm) (o n a : String) :
    WF (delete_route rm o n a).2 := by
  cases hE : dget rm.routes_by_remote_agent a with
  | none => rw [delete_route_unknown hE]; exact h
  | some r =>
    by_cases hm : r.organization = o ∧ r.«namespace» = n
    · obtain ⟨ho, hn⟩ := hm
      refine ⟨?_, ?_, ?_⟩
      · rw [delete_route_success hE ho hn]
        exact nodup_keys_dpop a h.nodup
      · intro p hp
        rw [delete_route_success hE ho hn] at hp
        exact h.keys_eq p (mem_of_mem_dpop hp)
      · intro o' n' a'
        rw [nestedGet_delete hE ho hn, flatTriple_delete hE ho hn]
        by_cases hc : o' = o ∧ n' = n ∧ a' = a
        · rw [if_pos hc, if_pos hc.2.2]
        · rw [if_neg hc]
          by_cases ha' : a' = a
          · subst ha'
            rw [if_pos rfl, h.agree]
            have hm2 : ¬ (r.organization = o' ∧ r.«namespace» = n') := by
              intro hh
              exact hc ⟨hh.1.symm.trans ho, hh.2.symm.trans hn, rfl⟩
            simp [flatTriple, hE, hm2]
          · rw [if_neg ha', h.agree]
    · rw [delete_route_mismatch hE hm]; exact h

theorem wf_add {rm : RouteManager} (h : WF rm) (o n a : String) :
    WF (add_route rm o n a) := by
  refine ⟨?_, ?_, ?_⟩
  · cases hE : dget rm.routes_by_remote_agent a with
    | none =>
      simp only [add_route, hE]
      exact nodup_keys_dset a _ h.nodup
    | some r0 =>
      simp only [add_route, hE, delete_route_success hE rfl rfl]
      exact nodup_keys_dset a _ (nodup_keys_dpop a h.nodup)
  · intro p hp
    cases hE : dget rm.routes_by_remote_agent a with
    | none =>
      simp only [add_route, hE] at hp
      rcases mem_dset hp with h2 | h2
      · subst h2; rfl
      · exact h.keys_eq p h2
    | some r0 =>
      simp only [add_route, hE, delete_route_success hE rfl rfl] at hp
      rcases mem_dset hp with h2 | h2
      · subst h2; rfl
      · exact h.keys_eq p (mem_of_mem_dpop h2)
  · intro o' n' a'
    rw [nestedGet_add h.agree, flatTriple_add]
    by_cases hc : o' = o ∧ n' = n ∧ a' = a
    · rw [if_pos hc, if_pos hc.2.2, if_pos ⟨hc.1.symm, hc.2.1.symm⟩]
    · rw [if_neg hc]
      by_cases ha' : a' = a
      · subst ha'
        rw [if_pos rfl, if_pos rfl]
        have hno : ¬ (o = o' ∧ n = n') := by
          intro hh
          exact hc ⟨hh.1.symm, hh.2.symm, rfl⟩
        rw [if_neg hno]
      · rw [if_neg ha', if_neg ha', h.agree]

theorem wf_applyOp {rm : RouteManager} (h : WF rm) (op : RouteOp) :
    WF (applyOp rm op) := by
  cases op with
  | add o n a => exact wf_add h o n a
  | del o n a => exact wf_delete h o n a

theorem wf_emptyRouteManager : WF emptyRouteManager := by
  refine ⟨?_, ?_, ?_⟩ <;>
    simp [emptyRouteManager, nestedGet, nget, flatTriple, dget]

theorem wf_applyOps (ops : List RouteOp) : WF (applyOps ops) := by
  suffices h : ∀ rm, WF rm → WF (ops.foldl applyOp rm) from
    h _ wf_emptyRouteManager
  induction ops with
  | nil => intro rm h; simpa using h
  | cons op rest ih => intro rm h; exact ih _ (wf_applyOp h op)

/-! Bridging lookups and the value lists of the flat index. -/

theorem values_triple_iff {rm : RouteManager} (h : WF rm) (o n a : String) :
    (∃ r ∈ rm.routes_by_remote_agent.map Prod.snd,
        r.organization = o ∧ r.«namespace» = n ∧ r.remote_agent = a) ↔
    (∃ r, dget rm.routes_by_remote_agent a = some r ∧
        r.organization = o ∧ r.«namespace» = n) := by
  constructor
  · rintro ⟨r, hr, h1, h2, h3⟩
    rcases List.mem_map.1 hr with ⟨p, hp, hps⟩
    have hk := h.keys_eq p hp
    have hg : dget rm.routes_by_remote_agent p.1 = some p.2 :=
      mem_dget h.nodup (by simpa using hp)
    have hpa : p.1 = a := by rw [← hk, hps, h3]
    refine ⟨r, ?_, h1, h2⟩
    rw [← hpa, hg, hps]
  · rintro ⟨r, hg, h1, h2⟩
    have hk : r.remote_agent = a := h.keys_eq (a, r) (dget_mem hg)
    exact ⟨r, List.mem_map_of_mem Prod.snd (dget_mem hg), h1, h2, hk⟩

theorem values_filter_nil {d : Dict RouteInfo}
    (hke : ∀ p ∈ d, p.2.remote_agent = p.1) {a : String}
    (hout : a ∉ d.map Prod.fst) :
    (d.map Prod.snd).filter (fun r => r.remote_agent == a) = [] := by
  rw [List.filter_eq_nil_iff]
  intro r hr hbe
  rcases List.mem_map.1 hr with ⟨p, hp, hps⟩
  apply hout
  have hra : r.remote_agent = a := by simpa using hbe
  have : p.1 = a := by rw [← hke p hp, hps, hra]
  exact this ▸ List.mem_map_of_mem Prod.fst hp

theorem values_filter_unique {d : Dict RouteInfo}
    (hnd : (d.map Prod.fst).Nodup) (hke : ∀ p ∈ d, p.2.remote_agent = p.1)
    {a : String} {v : RouteInfo} (h : dget d a = some v) :
    (d.map Prod.snd).filter (fun r => r.remote_agent == a) = [v] := by
  induction d with
  | nil => simp [dget] at h
  | cons p rest ih =>
    obtain ⟨k1, v1⟩ := p
    simp only [List.map_cons, List.nodup_cons] at hnd
    have hk1 : v1.remote_agent = k1 := hke (k1, v1) (by simp)
    by_cases h1 : k1 = a
    · subst h1
      have hv : v1 = v := by simpa [dget] using h
      subst hv
      simp only [List.map_cons, List.filter_cons]
      rw [if_pos (by simpa using hk1)]
      rw [values_filter_nil (fun q hq => hke q (List.mem_cons_of_mem _ hq))
        (hk1 ▸ hnd.1)]
    · have h' : dget rest a = some v := by simpa [dget, h1] using h
      simp only [List.map_cons, List.filter_cons]
      have hne : ¬ (v1.remote_agent == a) = true := by
        simp [hk1, h1]
      rw [if_neg hne]
      exact ih hnd.2 (fun q hq => hke q (List.mem_cons_of_mem _ hq)) h'

/-! The gateway-container `process_message` never raises (every branch is
wrapped by the `try`/`except` clauses), and the loop lemmas built on it. -/

theorem gw_process_message_total (payload : Dict JsonVal)
    (app : Option HandlerOutcome) :
    ∃ v, gw_process_message payload app = .reply v := by
  by_cases h1 : truthyOpt (dget payload "agent_id") = true
  · by_cases h2 : truthyOpt (dget payload "route") = true
    · match app with
      | none =>
        exact ⟨gw_create_error "FastAPI app is not available" 500
          (jsonOrNull (dget payload "agent_id")), by simp [gw_process_message, h1, h2]⟩
      | some (.raises e) =>
        exact ⟨gw_handle_exc (dget payload "agent_id") e,
          by simp [gw_process_message, h1, h2]⟩
      | some (.resp status body) =>
        by_cases h3 : 200 ≤ status ∧ status ≤ 299
        · by_cases h4 : status = 200
          · exact ⟨body, by simp [gw_process_message, h1, h2, h3, h4]⟩
          · exact ⟨.obj [("error", .str "Unexpected status code")],
              by simp [gw_process_message, h1, h2, h3, h4]⟩
        · exact ⟨gw_handle_exc (dget payload "agent_id") (.httpStatusError status),
            by simp [gw_process_message, h1, h2, h3]⟩
    · exact ⟨gw_create_error "NOT_FOUND" 404 (jsonOrNull (dget payload "agent_id")),
        by simp [gw_process_message, h1, h2]⟩
  · exact ⟨gw_create_error "agent_id is required and cannot be empty." 422
      (jsonOrNull (dget payload "agent_id")), by simp [gw_process_message, h1]⟩

theorem serverLoop_nil (app : Option (Dict JsonVal → HandlerOutcome))
    (cp : CancelPoint) (ls lm : String) :
    serverLoop app [] cp ls lm = ⟨[], .shutdownError (shutdownMessage ls lm), true⟩ :=
  rfl

theorem serverLoop_cons_raised {app : Option (Dict JsonVal → HandlerOutcome)}
    {src : String} {payload : Dict JsonVal} {rest : List (String × Dict JsonVal)}
    {cp : CancelPoint} {ls lm : String} {e : String}
    (hg : gw_process_message payload (app.map fun f => f payload) = .raised e) :
    serverLoop app ((src, payload) :: rest) cp ls lm = ⟨[], .uncaught e, true⟩ := by
  rw [serverLoop, hg]

theorem serverLoop_cons_reply {app : Option (Dict JsonVal → HandlerOutcome)}
    {src : String} {payload : Dict JsonVal} {rest : List (String × Dict JsonVal)}
    {cp : CancelPoint} {ls lm : String} {v : JsonVal}
    (hg : gw_process_message payload (app.map fun f => f payload) = .reply v) :
    serverLoop app ((src, payload) :: rest) cp ls lm =
      if rest.isEmpty ∧ cp = .duringFinalPublish then
        ⟨[], .shutdownError (shutdownMessage src (pyStrPayload payload)), true⟩
      else
        ⟨(src, v) :: (serverLoop app rest cp src (pyStrPayload payload)).published,
          (serverLoop app rest cp src (pyStrPayload payload)).outcome,
          (serverLoop app rest cp src (pyStrPayload payload)).cleanupLogged⟩ := by
  rw [serverLoop, hg]

theorem serverLoop_cleanup (app : Option (Dict JsonVal → HandlerOutcome)) :
    ∀ (msgs : List (String × Dict JsonVal)) (cp : CancelPoint) (ls lm : String),
    (serverLoop app msgs cp ls lm).cleanupLogged = true := by
  intro msgs
  induction msgs with
  | nil => intro cp ls lm; rfl
  | cons m rest ih =>
    intro cp ls lm
    obtain ⟨src, payload⟩ := m
    cases hg : gw_process_message payload (app.map fun f => f payload) with
    | raised e => rw [serverLoop_cons_raised hg]
    | reply v =>
      rw [serverLoop_cons_reply hg]
      by_cases hc : rest.isEmpty ∧ cp = CancelPoint.duringFinalPublish
      · rw [if_pos hc]
      · rw [if_neg hc]
        exact ih cp src (pyStrPayload payload)

theorem serverLoop_outcome (app : Option (Dict JsonVal → HandlerOutcome)) :
    ∀ (msgs : List (String × Dict JsonVal)) (cp : CancelPoint) (ls lm src : String)
      (p : Dict JsonVal), msgs.getLast? = some (src, p) →
    (serverLoop app msgs cp ls lm).outcome =
      .shutdownError (shutdownMessage src (pyStrPayload p)) := by
  intro msgs
  induction msgs with
  | nil => intro cp ls lm src p h; simp at h
  | cons m rest ih =>
    intro cp ls lm src p h
    obtain ⟨src1, p1⟩ := m
    rcases gw_process_message_total p1 (app.map fun f => f p1) with ⟨v, hv⟩
    rw [serverLoop_cons_reply hv]
    cases rest with
    | nil =>
      have h2 : src1 = src ∧ p1 = p := by simpa using h
      obtain ⟨ha, hb⟩ := h2
      subst ha; subst hb
      by_cases hc : ([] : List (String × Dict JsonVal)).isEmpty = true ∧
          cp = CancelPoint.duringFinalPublish
      · rw [if_pos hc]
      · rw [if_neg hc, serverLoop_nil]
    | cons m2 rest2 =>
      have h' : (m2 :: rest2).getLast? = some (src, p) := by
        simpa [List.getLast?_cons_cons] using h
      have hc : ¬ ((m2 :: rest2).isEmpty = true ∧ cp = CancelPoint.duringFinalPublish) := by
        simp
      rw [if_neg hc]
      exact ih cp src1 (pyStrPayload p1) src p h'

/-! Bound on the backoff sleeps of `connect_with_retry`. -/

theorem connect_sleeps_mem_bound (B : Nat) (hB : 30 ≤ B) :
    ∀ (attempts : List Nat) (max_duration d t s e : Nat), d ≤ B →
      (s, e) ∈ connect_with_retry_sleeps attempts max_duration d t →
      s ≤ max_duration ∧ e ≤ max_duration + B := by
  intro attempts
  induction attempts with
  | nil =>
    intro maxD d t s e hd hm
    simp [connect_with_retry_sleeps] at hm
  | cons a rest ih =>
    intro maxD d t s e hd hm
    by_cases ht : t < maxD
    · have hrem : ¬ (maxD - t = 0) := Nat.sub_ne_zero_of_lt ht
      rw [connect_with_retry_sleeps, if_pos ht, if_neg hrem] at hm
      rcases List.mem_cons.1 hm with h1 | h1
      · rw [Prod.mk.injEq] at h1
        obtain ⟨hs, he⟩ := h1
        have hmin : min a (maxD - t) ≤ maxD - t := Nat.min_le_right _ _
        omega
      · have hd' : min (d * 2) 30 ≤ B := le_trans (Nat.min_le_right _ _) hB
        exact ih maxD (min (d * 2) 30) _ s e hd' h1
    · rw [connect_with_retry_sleeps, if_neg ht] at hm
      simp at hm

/-! Claim theorems. -/

/-- C1: for every sequence of `addRoute`/`deleteRoute` calls starting from an
empty `RouteManager`, at every point between calls the set of
`(organization, namespace, remote_agent)` triples reachable through the
nested organization -> namespace -> agent index equals the set of triples
`(r.organization, r.namespace, r.remote_agent)` over the values of the flat
by-remote-agent index: no orphaned nested entries, no missing nested
entries. -/
theorem c1_index_consistency (ops : List RouteOp) (o n a : String) :
    (∃ r, nestedGet (applyOps ops) o n a = some r) ↔
    (∃ r ∈ (applyOps ops).routes_by_remote_agent.map Prod.snd,
      r.organization = o ∧ r.«namespace» = n ∧ r.remote_agent = a) := by
  have h := wf_applyOps ops
  rw [values_triple_iff h o n a, h.agree o n a]
  cases hE : dget (applyOps ops).routes_by_remote_agent a with
  | none =>
    have hft : flatTriple (applyOps ops) o n a = none := by
      simp [flatTriple, hE]
    rw [hft]
    simp
  | some r =>
    have hft : flatTriple (applyOps ops) o n a =
        if r.organization = o ∧ r.«namespace» = n then some r else none := by
      simp [flatTriple, hE]
    rw [hft]
    by_cases hc : r.organization = o ∧ r.«namespace» = n
    · rw [if_pos hc]
      exact ⟨fun _ => ⟨r, rfl, hc.1, hc.2⟩, fun _ => ⟨r, rfl⟩⟩
    · rw [if_neg hc]
      constructor
      · rintro ⟨r', hr'⟩
        cases hr'
      · rintro ⟨r', hr', h1, h2⟩
        rw [Option.some.injEq] at hr'
        subst hr'
        exact absurd ⟨h1, h2⟩ hc

/-- C1 witness: the consistency instance after one concrete `addRoute`. -/
theorem c1_index_consistency_witness :
    (∃ r, nestedGet (applyOps [.add "o" "n" "a"]) "o" "n" "a" = some r) ↔
    (∃ r ∈ (applyOps [.add "o" "n" "a"]).routes_by_remote_agent.map Prod.snd,
      r.organization = "o" ∧ r.«namespace» = "n" ∧ r.remote_agent = "a") :=
  c1_index_consistency [.add "o" "n" "a"] "o" "n" "a"

/-- C2 counterexample: with `orgA = orgB = "o"`, `nsA = nsB = "n"` the claim
fails — after `add_route "o" "n" "a"` twice, a route for the agent is still
reachable under `(orgA, nsA)` in both indexes, contradicting the claim's
"no route for agent1 remains reachable under (orgA, nsA) in either index"
for this instantiation of its universally quantified strings. -/
theorem c2_same_location_counterexample :
    nestedGet (add_route (add_route emptyRouteManager "o" "n" "a") "o" "n" "a")
      "o" "n" "a" = some ⟨"o", "n", "a"⟩ ∧
    route_exists (add_route (add_route emptyRouteManager "o" "n" "a") "o" "n" "a")
      "o" "n" "a" = true := by
  constructor <;> rfl

/-- C2 (amended): for every reachable `RouteManager` state and strings with
`(orgA, nsA) ≠ (orgB, nsB)`: after `add_route orgA nsA agent1` then
`add_route orgB nsB agent1`, exactly one route exists for `agent1` (the
flat-index values filtered to `agent1` are exactly `[(orgB, nsB, agent1)]`),
it is stored under `(orgB, nsB)` and reachable only there in the nested
index, and no route for `agent1` remains reachable under `(orgA, nsA)` in
either index. -/
theorem c2_overwrite_moves_route (ops : List RouteOp)
    (orgA nsA orgB nsB agent1 : String) (rm2 : RouteManager)
    (hrm : rm2 = add_route (add_route (applyOps ops) orgA nsA agent1) orgB nsB agent1)
    (hne : ¬ (orgA = orgB ∧ nsA = nsB)) :
    (rm2.routes_by_remote_agent.map Prod.snd).filter
        (fun r => r.remote_agent == agent1) = [⟨orgB, nsB, agent1⟩] ∧
    get_route_by_remote_agent rm2 agent1 = some ⟨orgB, nsB, agent1⟩ ∧
    (∀ o n, nestedGet rm2 o n agent1 =
      if o = orgB ∧ n = nsB then some ⟨orgB, nsB, agent1⟩ else none) ∧
    nestedGet rm2 orgA nsA agent1 = none ∧
    route_exists rm2 orgA nsA agent1 = false := by
  subst hrm
  have h0 := wf_applyOps ops
  have h1 := wf_add h0 orgA nsA agent1
  have h2 := wf_add h1 orgB nsB agent1
  have hflat : dget (add_route (add_route (applyOps ops) orgA nsA agent1)
      orgB nsB agent1).routes_by_remote_agent agent1 = some ⟨orgB, nsB, agent1⟩ := by
    rw [flat_add]
    simp
  have hnest : ∀ o n, nestedGet (add_route (add_route (applyOps ops) orgA nsA agent1)
      orgB nsB agent1) o n agent1 =
      if o = orgB ∧ n = nsB then some ⟨orgB, nsB, agent1⟩ else none := by
    intro o n
    rw [nestedGet_add h1.agree]
    by_cases hc : o = orgB ∧ n = nsB
    · simp [hc.1, hc.2]
    · have hc3 : ¬ (o = orgB ∧ n = nsB ∧ agent1 = agent1) := by tauto
      rw [if_neg hc3, if_neg hc, if_pos rfl]
  refine ⟨?_, hflat, hnest, ?_, ?_⟩
  · exact values_filter_unique h2.nodup h2.keys_eq hflat
  · rw [hnest orgA nsA, if_neg hne]
  · have hne' : ¬ (orgB = orgA ∧ nsB = nsA) := fun hh => hne ⟨hh.1.symm, hh.2.symm⟩
    simp [route_exists, hflat, hne']

/-- C2 witness: the amended statement at a concrete overwrite across two
distinct (organization, namespace) pairs, starting from the empty state. -/
theorem c2_overwrite_moves_route_witness :
    ((add_route (add_route (applyOps []) "o1" "n1" "a") "o2" "n2" "a").routes_by_remote_agent.map
        Prod.snd).filter (fun r => r.remote_agent == "a") = [⟨"o2", "n2", "a"⟩] ∧
    get_route_by_remote_agent
      (add_route (add_route (applyOps []) "o1" "n1" "a") "o2" "n2" "a") "a" =
      some ⟨"o2", "n2", "a"⟩ ∧
    (∀ o n, nestedGet (add_route (add_route (applyOps []) "o1" "n1" "a") "o2" "n2" "a")
      o n "a" = if o = "o2" ∧ n = "n2" then some ⟨"o2", "n2", "a"⟩ else none) ∧
    nestedGet (add_route (add_route (applyOps []) "o1" "n1" "a") "o2" "n2" "a")
      "n1" "n1" "a" = none ∧
    route_exists (add_route (add_route (applyOps []) "o1" "n1" "a") "o2" "n2" "a")
      "o1" "n1" "a" = false := by
  have h := c2_overwrite_moves_route [] "o1" "n1" "o2" "n2" "a" _ rfl (by simp)
  exact ⟨h.1, h.2.1, h.2.2.1, by rw [h.2.2.1 "n1" "n1"]; simp, h.2.2.2.2⟩

/-- C3: `delete_route` returns true iff a route for the agent exists whose
stored organization and namespace both equal the arguments (in which case
the route is removed from both indexes); on an unknown agent or mismatched
organization/namespace it returns false and leaves the manager completely
unchanged (and, being a total function, raises nothing). -/
theorem c3_delete_route_guard (rm : RouteManager) (o n a : String) :
    ((delete_route rm o n a).1 = true ↔
      ∃ r, dget rm.routes_by_remote_agent a = some r ∧
        r.organization = o ∧ r.«namespace» = n) ∧
    ((delete_route rm o n a).1 = false → (delete_route rm o n a).2 = rm) ∧
    ((delete_route rm o n a).1 = true →
      dget (delete_route rm o n a).2.routes_by_remote_agent a = none ∧
      nestedGet (delete_route rm o n a).2 o n a = none) := by
  cases hE : dget rm.routes_by_remote_agent a with
  | none =>
    rw [delete_route_unknown hE]
    refine ⟨⟨fun h => Bool.noConfusion h, ?_⟩, fun _ => rfl,
      fun h => Bool.noConfusion h⟩
    rintro ⟨r, hr, _, _⟩
    cases hr
  | some r =>
    by_cases hm : r.organization = o ∧ r.«namespace» = n
    · have hs := delete_route_success hE hm.1 hm.2
      refine ⟨⟨fun _ => ⟨r, rfl, hm.1, hm.2⟩, fun _ => ?_⟩, fun h => ?_,
        fun _ => ⟨?_, ?_⟩⟩
      · rw [hs]
      · rw [hs] at h
        exact absurd h (by simp)
      · rw [flat_delete hE hm.1 hm.2, if_pos rfl]
      · rw [nestedGet_delete hE hm.1 hm.2, if_pos ⟨rfl, rfl, rfl⟩]
    · have hs := delete_route_mismatch hE hm
      rw [hs]
      refine ⟨⟨fun h => Bool.noConfusion h, ?_⟩, fun _ => rfl,
        fun h => Bool.noConfusion h⟩
      rintro ⟨r', hr', hh1, hh2⟩
      rw [Option.some.injEq] at hr'
      subst hr'
      exact absurd ⟨hh1, hh2⟩ hm

/-- C3 witness: the guard instance on the state holding one concrete route,
queried at that route. -/
theorem c3_delete_route_guard_witness :
    (((delete_route (applyOps [.add "o" "n" "a"]) "o" "n" "a").1 = true ↔
      ∃ r, dget (applyOps [.add "o" "n" "a"]).routes_by_remote_agent "a" = some r ∧
        r.organization = "o" ∧ r.«namespace» = "n") ∧
    ((delete_route (applyOps [.add "o" "n" "a"]) "o" "n" "a").1 = false →
      (delete_route (applyOps [.add "o" "n" "a"]) "o" "n" "a").2 =
        applyOps [.add "o" "n" "a"]) ∧
    ((delete_route (applyOps [.add "o" "n" "a"]) "o" "n" "a").1 = true →
      dget (delete_route (applyOps [.add "o" "n" "a"]) "o" "n" "a").2.routes_by_remote_agent
        "a" = none ∧
      nestedGet (delete_route (applyOps [.add "o" "n" "a"]) "o" "n" "a").2 "o" "n" "a" =
        none)) :=
  c3_delete_route_guard (applyOps [.add "o" "n" "a"]) "o" "n" "a"

/-- C4: if the transport call inside `register_route` / `deregister_route`
fails, the operation re-raises exactly that error and the `RouteManager`
state is exactly what it was before the call; the registry is mutated only
when the transport call succeeded (in which case the operation performs
exactly the corresponding registry update). -/
theorem c4_transactional_route_registration (e : String) (rm : RouteManager)
    (o n a : String) :
    register_route (.error e) rm o n a = (.error e, rm) ∧
    deregister_route (.error e) rm o n a = (.error e, rm) ∧
    register_route (.ok ()) rm o n a = (.ok (), add_route rm o n a) ∧
    deregister_route (.ok ()) rm o n a =
      (.ok (delete_route rm o n a).1, (delete_route rm o n a).2) :=
  ⟨rfl, rfl, rfl, rfl⟩

/-- C5 counterexample: with `max_duration = 2`, `initial_delay = 1` and two
instantly failing connection attempts, the second backoff sleep runs from 1
to 3, i.e. it ends after `max_duration` — the source sleeps the full current
delay (`await asyncio.sleep(delay)`) without truncating it to the remaining
budget, so the claim "every backoff sleep ends no later than max_duration
after the recorded start time" is false on the code. -/
theorem c5_sleep_overruns_budget :
    connect_with_retry_sleeps [0, 0] 2 1 0 = [(0, 1), (1, 3)] ∧
    (1, 3) ∈ connect_with_retry_sleeps [0, 0] 2 1 0 ∧ ¬ (3 ≤ 2) := by
  refine ⟨rfl, ?_, by decide⟩
  rw [show connect_with_retry_sleeps [0, 0] 2 1 0 = [(0, 1), (1, 3)] from rfl]
  simp

/-- C5 (amended): every backoff sleep starts no later than `max_duration`
after the recorded start time, and ends no later than
`max_duration + max initial_delay 30` — the sleep after a failed attempt is
the full current delay (which never exceeds `max initial_delay 30`), not the
remaining budget, so a sleep may overrun `max_duration` by at most that
delay. -/
theorem c5_sleep_bounds (attempts : List Nat) (max_duration initial_delay s e : Nat)
    (h : (s, e) ∈ connect_with_retry_sleeps attempts max_duration initial_delay 0) :
    s ≤ max_duration ∧ e ≤ max_duration + max initial_delay 30 :=
  connect_sleeps_mem_bound (max initial_delay 30) (Nat.le_max_right _ _) attempts
    max_duration initial_delay 0 s e (Nat.le_max_left _ _) h

/-- C5 witness: the bound applied to the first sleep of a concrete run. -/
theorem c5_sleep_bounds_witness :
    (0, 1) ∈ connect_with_retry_sleeps [0] 2 1 0 ∧
    (0 ≤ 2 ∧ 1 ≤ 2 + max 1 30) :=
  ⟨by decide, c5_sleep_bounds [0] 2 1 0 1 (by decide)⟩

/-- C6: evaluation at the failing input.  A validated payload is posted to a
handler that reports a structured error (`fastapi.HTTPException` with status
404, which FastAPI turns into a 404 response).  `response.raise_for_status()`
then raises `httpx.HTTPStatusError` — not `fastapi.HTTPException` — so the
`except HTTPException` branch that would carry the handler's status code is
unreachable, the generic `except Exception` branch runs, and the reply
carries error code 500 with the stringified client-library error instead of
the handler's 404 status and detail. -/
theorem c6_handler_status_code_dropped :
    gw_process_message
      [("agent_id", .str "a1"), ("route", .str "/x"),
        ("input", .obj [("messages", .arr [.obj [("role", .str "user"),
          ("content", .str "hi")]])])]
      (some (.resp 404 (.obj [("detail", .str "nope")]))) =
      .reply (gw_create_error (pyStrExc (.httpStatusError 404)) 500 (.str "a1")) ∧
    gw_create_error (pyStrExc (.httpStatusError 404)) 500 (.str "a1") ≠
      gw_create_error "nope" 404 (.str "a1") := by
  constructor
  · rfl
  · intro h
    simp [gw_create_error, pyStrExc] at h

/-- C7: a payload whose `agent_id` is absent or empty (Python-falsy) makes
both `GatewayContainer.process_message` and the module-level
`data_plane.process_message` return the structured 422 error
"agent_id is required and cannot be empty." — the `agent_id` rule is
evaluated first and short-circuits every later rule (route, input, handler),
so the result is this 422 reply and never a 404 or 500. -/
theorem c7_agent_id_rule_first (payload : Dict JsonVal) (app : Option HandlerOutcome)
    (h : truthyOpt (dget payload "agent_id") = false) :
    gw_process_message payload app =
      .reply (gw_create_error "agent_id is required and cannot be empty." 422
        (jsonOrNull (dget payload "agent_id"))) ∧
    dp_process_message payload =
      .reply (dp_create_error "agent_id is required and cannot be empty." 422) := by
  constructor
  · simp [gw_process_message, h]
  · simp [dp_process_message, h]

/-- C7 witness: the 422 short-circuit on the spec's own scenario payload
(missing `agent_id`, well-formed `input`, present `route`). -/
theorem c7_agent_id_rule_first_witness :
    gw_process_message
      [("input", .obj [("messages", .arr [.obj [("role", .str "assistant"),
        ("content", .str "hi")]])]), ("route", .str "/x")] none =
      .reply (gw_create_error "agent_id is required and cannot be empty." 422
        (jsonOrNull (dget [("input", .obj [("messages", .arr [.obj [("role",
          .str "assistant"), ("content", .str "hi")]])]), ("route", .str "/x")]
          "agent_id"))) ∧
    dp_process_message
      [("input", .obj [("messages", .arr [.obj [("role", .str "assistant"),
        ("content", .str "hi")]])]), ("route", .str "/x")] =
      .reply (dp_create_error "agent_id is required and cannot be empty." 422) :=
  c7_agent_id_rule_first _ none rfl

/-- C8 counterexample: a payload with non-empty `agent_id` and `route` whose
`input` is not a mapping, but whose `metadata` field is the number 1 — the
metadata step of `data_plane.process_message` evaluates
`metadata.get("id")` on a non-dict and raises `AttributeError` before ever
reaching validation rule 3, so the claimed 500 reply is not produced. -/
theorem c8_metadata_counterexample :
    dp_process_message [("agent_id", .str "a1"), ("route", .str "/x"),
      ("metadata", .num 1), ("input", .str "not a dict")] =
      .raised "AttributeError" ∧
    dp_process_message [("agent_id", .str "a1"), ("route", .str "/x"),
      ("metadata", .num 1), ("input", .str "not a dict")] ≠
      .reply (dp_create_error "The \x27input\x27 field should be a dictionary." 500) := by
  refine ⟨rfl, fun h => ?_⟩
  have h2 : PyResult.raised "AttributeError" =
      .reply (dp_create_error "The \x27input\x27 field should be a dictionary." 500) := h
  cases h2

/-- C8 (amended): for every payload with Python-truthy `agent_id` and
`route`, whose `metadata` field (if present) is `None` or a mapping, and
whose `input` field is not a mapping, `data_plane.process_message` returns
the structured error `{"message": "The 'input' field should be a
dictionary.", "error": 500}` (validation rule 3 of the wire schema). -/
theorem c8_input_not_mapping (payload : Dict JsonVal)
    (hagent : truthyOpt (dget payload "agent_id") = true)
    (hroute : truthyOpt (dget payload "route") = true)
    (hmeta : metadataOk (dget payload "metadata") = true)
    (hinput : isObjOpt (dget payload "input") = false) :
    dp_process_message payload =
      .reply (dp_create_error "The \x27input\x27 field should be a dictionary." 500) := by
  have hchecks : dp_input_checks payload =
      .reply (dp_create_error "The \x27input\x27 field should be a dictionary." 500) := by
    unfold dp_input_checks
    cases hI : dget payload "input" with
    | none => rfl
    | some v =>
      cases v with
      | obj fields => rw [hI] at hinput; simp [isObjOpt] at hinput
      | str sv => rfl
      | num nv => rfl
      | bool bv => rfl
      | null => rfl
      | arr xs => rfl
  cases hM : dget payload "metadata" with
  | none => simp [dp_process_message, hagent, hroute, hM, hchecks]
  | some v =>
    cases v with
    | null => simp [dp_process_message, hagent, hroute, hM, hchecks]
    | obj fields => simp [dp_process_message, hagent, hroute, hM, hchecks]
    | str sv => rw [hM] at hmeta; simp [metadataOk] at hmeta
    | num nv => rw [hM] at hmeta; simp [metadataOk] at hmeta
    | bool bv => rw [hM] at hmeta; simp [metadataOk] at hmeta
    | arr xs => rw [hM] at hmeta; simp [metadataOk] at hmeta

/-- C8 witness: rule 3 firing on a concrete payload without metadata. -/
theorem c8_input_not_mapping_witness :
    dp_process_message [("agent_id", .str "a1"), ("route", .str "/x"),
      ("input", .str "nope")] =
      .reply (dp_create_error "The \x27input\x27 field should be a dictionary." 500) :=
  c8_input_not_mapping _ rfl rfl rfl rfl

/-- C9: when the reinjection loop is cancelled after receiving at least one
message — whether the cancellation lands at the next `receive()` or during
the publish of the final message, whose processing is then incomplete — it
raises the shutdown `RuntimeError` whose message contains (by construction,
as the f-string interpolates them) the most recently received source and the
most recently decoded message, and the `finally` cleanup step logging the
identity being torn down runs on every exit path of the loop. -/
theorem c9_shutdown_diagnostics (app : Option (Dict JsonVal → HandlerOutcome))
    (msgs : List (String × Dict JsonVal)) (cp : CancelPoint) (src : String)
    (p : Dict JsonVal) (hlast : msgs.getLast? = some (src, p)) :
    (start_server app msgs cp).outcome =
      .shutdownError ("Shutdown server. Last source: " ++ src ++
        ", Last message: " ++ pyStrPayload p) ∧
    (∀ (app' : Option (Dict JsonVal → HandlerOutcome))
      (msgs' : List (String × Dict JsonVal)) (cp' : CancelPoint),
      (start_server app' msgs' cp').cleanupLogged = true) :=
  ⟨serverLoop_outcome app msgs cp "" "" src p hlast,
    fun app' msgs' cp' => serverLoop_cleanup app' msgs' cp' "" ""⟩

/-- C9 witness: one received message, cancellation at the next receive. -/
theorem c9_shutdown_diagnostics_witness :
    (start_server none [("s1", [("k", .str "v")])] .atNextReceive).outcome =
      .shutdownError ("Shutdown server. Last source: " ++ "s1" ++
        ", Last message: " ++ pyStrPayload [("k", .str "v")]) ∧
    (∀ (app' : Option (Dict JsonVal → HandlerOutcome))
      (msgs' : List (String × Dict JsonVal)) (cp' : CancelPoint),
      (start_server app' msgs' cp').cleanupLogged = true) :=
  c9_shutdown_diagnostics none [("s1", [("k", .str "v")])] .atNextReceive
    "s1" [("k", .str "v")] rfl

/-- C10: for every payload passing the `agent_id` and `route` rules, when no
FastAPI app is set, `GatewayContainer.process_message` does not raise: it
returns the structured error reply
`{"message": "FastAPI app is not available", "error": 500, "agent_id": <the
payload's agent_id>}`, so a missing local handler never crashes the
reinjection loop. -/
theorem c10_missing_app_structured_reply (payload : Dict JsonVal) (v : JsonVal)
    (hagent : dget payload "agent_id" = some v) (hv : truthy v = true)
    (hroute : truthyOpt (dget payload "route") = true) :
    gw_process_message payload none =
      .reply (.obj [("message", .str "FastAPI app is not available"),
        ("error", .num 500), ("agent_id", v)]) := by
  have hsv : truthyOpt (some v) = true := by simpa [truthyOpt] using hv
  simp [gw_process_message, hroute, hagent, hsv, jsonOrNull, gw_create_error]

/-- C10 witness: the missing-app reply on a concrete validated payload. -/
theorem c10_missing_app_structured_reply_witness :
    gw_process_message [("agent_id", .str "a1"), ("route", .str "/x")] none =
      .reply (.obj [("message", .str "FastAPI app is not available"),
        ("error", .num 500), ("agent_id", .str "a1")]) :=
  c10_missing_app_structured_reply _ (.str "a1") rfl rfl rfl
